import Mathlib

/-!
Verification of `MultilineBashOperator.execute`
(`src/SpotifyPipeline/airflow/plugins/operators/multiline_bash_operator.py`,
lines 89-154).

The method prepares an environment for the child process (lines 96-105),
materialises the bash command into a temporary script file inside a fresh
temporary directory (lines 112-119), spawns `bash` on that script
(lines 129-136), reads the combined stdout/stderr stream line by line,
decoding each raw line with the configured output encoding and applying
Python `rstrip()` (lines 139-144), collects the lines in a buffer when
`xcom_push_flag` is set (lines 109-110 and 142-143), raises
`AirflowException("Bash command failed")` on a non-zero return code
(lines 150-151) and finally returns the buffer when `xcom_push_flag` is
set (lines 153-154).

The embedding below is shallow: Python dicts become insertion-ordered
association lists, the child process is a parameter (its raw stdout bytes
and return code), the filesystem is the list of currently existing
temporary directories, and the `with TemporaryDirectory(...)` statement
becomes a combinator that runs its release action on both the normal and
the exceptional exit path, which is exactly the guarantee CPython gives
for `with` blocks whose body either returns or raises.
-/

/-- Equality of `Except` values is decidable when it is on both sides;
the toolchain does not provide this instance. -/
instance {ε α : Type} [DecidableEq ε] [DecidableEq α] : DecidableEq (Except ε α) := fun a b =>
  match a, b with
  | Except.ok x, Except.ok y =>
    if h : x = y then isTrue (by rw [h]) else isFalse (by intro hc; cases hc; exact h rfl)
  | Except.error x, Except.error y =>
    if h : x = y then isTrue (by rw [h]) else isFalse (by intro hc; cases hc; exact h rfl)
  | Except.ok _, Except.error _ => isFalse (by intro hc; cases hc)
  | Except.error _, Except.ok _ => isFalse (by intro hc; cases hc)

/-- A Python dict with string keys and values, modelled as an association
list in insertion order (Python dicts preserve insertion order and have
unique keys). -/
abbrev Dict := List (String × String)

/-- Python dict lookup `d[k]`: the value at the first matching key. -/
def dictGet? (d : Dict) (k : String) : Option String :=
  (d.find? (fun p => p.1 == k)).map Prod.snd

/-- Python `d[k] = v` on an insertion-ordered dict: overwrite the value at
an existing key in place, otherwise append the new binding at the end. -/
def dictSet : Dict → String → String → Dict
  | [], k, v => [(k, v)]
  | (k1, v1) :: rest, k, v =>
    if k1 == k then (k, v) :: rest else (k1, v1) :: dictSet rest k v

/-- Python `d.update(other)` as called on line 105
(`env.update(airflow_context_vars)`): set every binding of `other` into
`d`, in order. -/
def dictUpdate (d other : Dict) : Dict :=
  other.foldl (fun acc p => dictSet acc p.1 p.2) d

/-- The Python whitespace predicate used by `str.rstrip()` with no
arguments, restricted to the ASCII whitespace characters (space, tab,
newline, carriage return, vertical tab, form feed), which is the fragment
exercised here. -/
def pyIsSpace (c : Char) : Bool :=
  c = ' ' || c = '\t' || c = '\n' || c = '\r' || c = '\x0b' || c = '\x0c'

/-- Python `s.rstrip()` as called on line 141: remove all trailing
whitespace characters, not only the line terminator. -/
def pyRstrip (s : String) : String :=
  String.mk (List.reverse (List.dropWhile pyIsSpace s.data.reverse))

/-- A text codec as used for the child output stream on line 141
(`line.decode(self.output_encoding)`): a function from raw bytes to text.
Only the decoding direction is needed, because the only encoding step in
`execute` (line 115) hardcodes UTF-8 instead of using this codec. -/
structure Encoding where
  decode : List Nat → String

/-- UTF-8 encoding of one Unicode code point (the standard algorithm). -/
def utf8EncodeCharNat (n : Nat) : List Nat :=
  if n < 0x80 then [n]
  else if n < 0x800 then [0xC0 ||| (n >>> 6), 0x80 ||| (n &&& 0x3F)]
  else if n < 0x10000 then
    [0xE0 ||| (n >>> 12), 0x80 ||| ((n >>> 6) &&& 0x3F), 0x80 ||| (n &&& 0x3F)]
  else
    [0xF0 ||| (n >>> 18), 0x80 ||| ((n >>> 12) &&& 0x3F),
     0x80 ||| ((n >>> 6) &&& 0x3F), 0x80 ||| (n &&& 0x3F)]

/-- Python `bytes(s, "utf_8")` as called on line 115: the UTF-8 bytes of
the string. -/
def utf8Encode (s : String) : List Nat :=
  (s.data.map (fun c => utf8EncodeCharNat c.toNat)).flatten

/-- A concrete single-byte codec (identity on code points below 256, as in
Latin-1), used to build concrete executions; on ASCII bytes it agrees with
UTF-8. -/
def asciiEncoding : Encoding :=
  ⟨fun bs => String.mk (bs.map Char.ofNat)⟩

/-- The caller-visible state of a `MultilineBashOperator` that `execute`
reads: the templated command (`self.bash_command`), the optional explicit
environment (`self.env`, line 97), the capture flag
(`self.xcom_push_flag`, lines 109 and 142 and 153), the output codec
(`self.output_encoding`, line 141) and the task id used as the temp file
name prefix (`self.task_id`, line 113). -/
structure ExecutionRequest where
  bash_command : String
  env : Option Dict
  xcom_push_flag : Bool
  output_encoding : Encoding
  task_id : String

/-- The observable behaviour of the spawned child process: the raw bytes
it wrote to the combined stdout/stderr pipe, and the return code read by
`wait()` on line 145 (negative values stand for signal deaths, as in
Python). -/
structure ProcessResult where
  stdoutBytes : List Nat
  returncode : Int

/-- Lines 97-105: the environment handed to `Popen` on line 134. When
`self.env` is `None`, start from a copy of `os.environ` (line 99),
otherwise from the supplied mapping itself (line 97); then merge the
Airflow context variables with `env.update(...)` (line 105), so context
values win on key collision. -/
def effectiveEnv (envOpt : Option Dict) (osEnviron contextVars : Dict) : Dict :=
  dictUpdate (match envOpt with | none => osEnviron | some e => e) contextVars

/-- The contents of the caller-supplied `self.env` mapping after `execute`
returns. Line 97 (`env = self.env`) aliases the supplied dict rather than
copying it, so the `env.update(airflow_context_vars)` on line 105 mutates
the caller's mapping in place; when `self.env` is `None` the update hits a
fresh copy of `os.environ` (line 99) and nothing the caller owns
changes. -/
def envAfter (envOpt : Option Dict) (contextVars : Dict) : Option Dict :=
  match envOpt with
  | none => none
  | some e => some (dictUpdate e contextVars)

/-- The caller-visible operator state after `execute` returns: `execute`
assigns none of `bash_command`, `xcom_push_flag`, `output_encoding`,
`task_id` and never rebinds `self.env`, but line 105 mutates the dict that
`self.env` points to (see `envAfter`). -/
def reqAfter (req : ExecutionRequest) (contextVars : Dict) : ExecutionRequest :=
  { req with env := envAfter req.env contextVars }

/-- Line 115: the bytes written to the temporary script file are
`bytes(self.bash_command, "utf_8")`; the configured output codec plays no
role on this path. -/
def scriptBytes (req : ExecutionRequest) : List Nat :=
  utf8Encode req.bash_command

/-- The line iteration produced by `iter(self.sub_process.stdout.readline,
b"")` on line 140: chunk the byte stream after every newline byte (10),
each chunk keeping its terminator; a final unterminated chunk is yielded
only when non-empty (readline returns `b""` exactly at end of stream).
`acc` holds the bytes of the current chunk in reverse. -/
def splitLinesKeepAux : List Nat → List Nat → List (List Nat)
  | [], acc => if acc.isEmpty then [] else [acc.reverse]
  | b :: rest, acc =>
    if b = 10 then (acc.reverse ++ [10]) :: splitLinesKeepAux rest []
    else splitLinesKeepAux rest (b :: acc)

/-- The list of raw lines `readline` yields for a given byte stream. -/
def splitLinesKeep (bs : List Nat) : List (List Nat) :=
  splitLinesKeepAux bs []

/-- The byte stream written by a command that writes each of the given
byte lines followed by a newline byte, in order. -/
def joinLines : List (List Nat) → List Nat
  | [] => []
  | l :: rest => l ++ 10 :: joinLines rest

/-- Line 141: decode one raw line with the configured output codec and
apply `rstrip()`. -/
def processLine (req : ExecutionRequest) (raw : List Nat) : String :=
  pyRstrip (req.output_encoding.decode raw)

/-- Lines 139-144: the contents of `output_buffer` after the read loop,
one processed line per raw line, in arrival order. -/
def runLoop (req : ExecutionRequest) (raws : List (List Nat)) : List String :=
  raws.map (processLine req)

/-- Lines 109-154 without the `with` blocks: build the buffer when
`xcom_push_flag` is set (lines 109-110 and 142-143), raise
`AirflowException("Bash command failed")` when the return code is truthy,
i.e. non-zero (lines 150-151), otherwise return the buffer when
`xcom_push_flag` is set and `None` when not (lines 153-154, falling off
the end of the function). -/
def executeBody (req : ExecutionRequest) (proc : ProcessResult) :
    Except String (Option (List String)) :=
  let output_buffer :=
    if req.xcom_push_flag then runLoop req (splitLinesKeep proc.stdoutBytes) else []
  if proc.returncode ≠ 0 then Except.error "Bash command failed"
  else if req.xcom_push_flag then Except.ok (some output_buffer)
  else Except.ok none

/-- A Python `with` statement whose body either returns normally
(`Except.ok`) or raises (`Except.error`): the acquire action runs on
entry and the release action runs on both exit paths before the result
propagates. -/
def pyWith {σ α : Type} (acquire release : σ → σ)
    (body : σ → Except String α × σ) (s : σ) : Except String α × σ :=
  let s1 := acquire s
  let p := body s1
  (p.1, release p.2)

/-- `MultilineBashOperator.execute` (lines 89-154). `contextVars` are the
Airflow context variables of line 100, `osEnviron` is `os.environ`,
`proc` is the observed child process behaviour, `tmpDir` is the fresh
directory name chosen by `TemporaryDirectory` on line 112, and `fs` is
the set of existing temporary directories, threaded through the `with`
block: the directory is created on entry and removed again on every exit
path (the nested `NamedTemporaryFile` lives inside it). The first
component is the outcome (captured lines, `None`, or the raised
exception), the second the filesystem afterwards. -/
def execute (req : ExecutionRequest) (contextVars osEnviron : Dict)
    (proc : ProcessResult) (tmpDir : String) (fs : List String) :
    Except String (Option (List String)) × List String :=
  let _env := effectiveEnv req.env osEnviron contextVars
  pyWith (fun f => tmpDir :: f) (fun f => f.erase tmpDir)
    (fun f => (executeBody req proc, f)) fs

/-- Written from the words of the spec, for comparison with the code:
"each with trailing line terminator removed" — remove one trailing line
terminator (`"\r\n"` or `"\n"`) and nothing else. -/
def specStripLineTerminator (s : String) : String :=
  if s.data.reverse.take 2 = ['\n', '\r'] then String.mk s.data.dropLast.dropLast
  else if s.data.reverse.take 1 = ['\n'] then String.mk s.data.dropLast
  else s

theorem execute_fst (req : ExecutionRequest) (c o : Dict) (proc : ProcessResult)
    (d : String) (fs : List String) :
    (execute req c o proc d fs).1 = executeBody req proc := rfl

theorem execute_snd (req : ExecutionRequest) (c o : Dict) (proc : ProcessResult)
    (d : String) (fs : List String) :
    (execute req c o proc d fs).2 = (d :: fs).erase d := rfl

theorem dictUpdate_nil (d : Dict) : dictUpdate d [] = d := rfl

theorem dictUpdate_cons (d : Dict) (p : String × String) (rest : Dict) :
    dictUpdate d (p :: rest) = dictUpdate (dictSet d p.1 p.2) rest := rfl

theorem dictSet_cons (k1 v1 : String) (rest : Dict) (k v : String) :
    dictSet ((k1, v1) :: rest) k v =
      if k1 == k then (k, v) :: rest else (k1, v1) :: dictSet rest k v := rfl

theorem dictGet?_cons (k1 v1 : String) (rest : Dict) (k : String) :
    dictGet? ((k1, v1) :: rest) k = if k1 == k then some v1 else dictGet? rest k := by
  by_cases h : k1 == k <;> simp [dictGet?, List.find?_cons, h]

theorem nodupKeys_cons {p : String × String} {rest : Dict}
    (h : ((p :: rest).map Prod.fst).Nodup) :
    p.1 ∉ rest.map Prod.fst ∧ (rest.map Prod.fst).Nodup := by
  rw [List.map_cons] at h
  exact List.nodup_cons.mp h

theorem dictGet?_dictSet_self (d : Dict) (k v : String) :
    dictGet? (dictSet d k v) k = some v := by
  induction d with
  | nil => simp [dictSet, dictGet?_cons]
  | cons p rest ih =>
    obtain ⟨k1, v1⟩ := p
    rw [dictSet_cons]
    by_cases h : k1 = k
    · simp [h, dictGet?_cons]
    · rw [if_neg (by simp [h]), dictGet?_cons, if_neg (by simp [h])]
      exact ih

theorem dictGet?_dictSet_ne (d : Dict) (k v j : String) (h : j ≠ k) :
    dictGet? (dictSet d k v) j = dictGet? d j := by
  induction d with
  | nil =>
    have hb : ¬ ((k == j) = true) := by simp [Ne.symm h]
    simp [dictSet, dictGet?_cons, hb, dictGet?]
  | cons p rest ih =>
    obtain ⟨k1, v1⟩ := p
    rw [dictSet_cons]
    by_cases hk : k1 = k
    · subst hk
      rw [if_pos (by simp), dictGet?_cons, dictGet?_cons,
        if_neg (by simp [Ne.symm h]), if_neg (by simp [Ne.symm h])]
    · rw [if_neg (by simp [hk]), dictGet?_cons, dictGet?_cons]
      by_cases hj : k1 = j
      · rw [if_pos (by simp [hj]), if_pos (by simp [hj])]
      · rw [if_neg (by simp [hj]), if_neg (by simp [hj])]
        exact ih

theorem isSome_dictGet?_dictSet (d : Dict) (k v j : String)
    (h : (dictGet? d j).isSome) : (dictGet? (dictSet d k v) j).isSome := by
  by_cases hj : j = k
  · subst hj; rw [dictGet?_dictSet_self]; rfl
  · rw [dictGet?_dictSet_ne d k v j hj]; exact h

theorem dictGet?_dictUpdate_not_mem (c : Dict) :
    ∀ (d : Dict) (k : String), k ∉ c.map Prod.fst →
      dictGet? (dictUpdate d c) k = dictGet? d k := by
  induction c with
  | nil => intro d k _; rfl
  | cons p rest ih =>
    intro d k hk
    rw [dictUpdate_cons]
    have hk1 : k ≠ p.1 := by intro he; exact hk (by simp [he])
    rw [ih (dictSet d p.1 p.2) k (by intro hm; exact hk (by simp [hm]))]
    exact dictGet?_dictSet_ne d p.1 p.2 k hk1

theorem dictGet?_dictUpdate_mem (c : Dict) :
    ∀ (d : Dict) (k v : String), ((c.map Prod.fst).Nodup) → (k, v) ∈ c →
      dictGet? (dictUpdate d c) k = some v := by
  induction c with
  | nil => intro d k v _ hm; cases hm
  | cons p rest ih =>
    intro d k v hnd hm
    obtain ⟨hp, hnd'⟩ := nodupKeys_cons hnd
    rw [dictUpdate_cons]
    rcases List.mem_cons.mp hm with heq | hmem
    · subst heq
      rw [dictGet?_dictUpdate_not_mem rest (dictSet d (k, v).1 (k, v).2) (k, v).1 hp]
      exact dictGet?_dictSet_self d k v
    · exact ih (dictSet d p.1 p.2) k v hnd' hmem

theorem isSome_dictGet?_dictUpdate (c : Dict) :
    ∀ (d : Dict) (j : String), (dictGet? d j).isSome →
      (dictGet? (dictUpdate d c) j).isSome := by
  induction c with
  | nil => intro d j h; exact h
  | cons p rest ih =>
    intro d j h
    rw [dictUpdate_cons]
    exact ih (dictSet d p.1 p.2) j (isSome_dictGet?_dictSet d p.1 p.2 j h)

theorem dictGet?_of_mem_nodup (c : Dict) :
    ∀ (k v : String), ((c.map Prod.fst).Nodup) → (k, v) ∈ c → dictGet? c k = some v := by
  induction c with
  | nil => intro k v _ hm; cases hm
  | cons p rest ih =>
    intro k v hnd hm
    obtain ⟨hp, hnd'⟩ := nodupKeys_cons hnd
    obtain ⟨k1, v1⟩ := p
    rcases List.mem_cons.mp hm with heq | hmem
    · injection heq with h1 h2
      subst h1; subst h2
      rw [dictGet?_cons, if_pos (by simp)]
    · have hk : k ≠ k1 := by
        intro he
        subst he
        exact hp (List.mem_map.mpr ⟨(k, v), hmem, rfl⟩)
      rw [dictGet?_cons, if_neg (by simp [Ne.symm hk])]
      exact ih k v hnd' hmem

theorem dropWhile_append_of_all {p : Char → Bool} (a b : List Char)
    (h : ∀ c ∈ a, p c = true) : List.dropWhile p (a ++ b) = List.dropWhile p b := by
  induction a with
  | nil => rfl
  | cons x a' ih =>
    rw [List.cons_append, List.dropWhile_cons]
    rw [h x (by simp)]
    exact ih (fun c hc => h c (by simp [hc]))

theorem pyRstrip_append_ws (s w : String) (h : ∀ c ∈ w.data, pyIsSpace c = true) :
    pyRstrip (s ++ w) = pyRstrip s := by
  unfold pyRstrip
  rw [String.data_append, List.reverse_append]
  rw [dropWhile_append_of_all w.data.reverse s.data.reverse
    (fun c hc => h c (List.mem_reverse.mp hc))]

theorem head?_dropWhile_false {p : Char → Bool} (l : List Char) (c : Char)
    (h : (List.dropWhile p l).head? = some c) : p c = false := by
  induction l with
  | nil => simp [List.dropWhile] at h
  | cons x l' ih =>
    rw [List.dropWhile_cons] at h
    by_cases hx : p x
    · rw [hx] at h
      simp at h
      exact ih h
    · rw [Bool.not_eq_true] at hx
      rw [hx] at h
      simp at h
      rw [← h]
      exact hx

theorem pyRstrip_no_trailing_ws (s : String) (c : Char)
    (h : (pyRstrip s).data.getLast? = some c) : pyIsSpace c = false := by
  unfold pyRstrip at h
  rw [show (String.mk (List.reverse (List.dropWhile pyIsSpace s.data.reverse))).data
      = List.reverse (List.dropWhile pyIsSpace s.data.reverse) from rfl] at h
  rw [List.getLast?_reverse] at h
  exact head?_dropWhile_false s.data.reverse c h

theorem splitLinesKeepAux_line (l : List Nat) :
    ∀ (bs acc : List Nat), 10 ∉ l →
      splitLinesKeepAux (l ++ 10 :: bs) acc =
        (acc.reverse ++ (l ++ [10])) :: splitLinesKeepAux bs [] := by
  induction l with
  | nil =>
    intro bs acc _
    simp [splitLinesKeepAux]
  | cons b l' ih =>
    intro bs acc h
    have hb : ¬ (b = 10) := by intro hb; exact h (by simp [hb])
    have h' : 10 ∉ l' := by intro hm; exact h (by simp [hm])
    rw [List.cons_append]
    rw [show splitLinesKeepAux (b :: (l' ++ 10 :: bs)) acc
        = if b = 10 then (acc.reverse ++ [10]) :: splitLinesKeepAux (l' ++ 10 :: bs) []
          else splitLinesKeepAux (l' ++ 10 :: bs) (b :: acc) from rfl]
    rw [if_neg hb]
    rw [ih bs (b :: acc) h']
    simp

theorem splitLinesKeep_joinLines (ls : List (List Nat)) :
    (∀ l ∈ ls, 10 ∉ l) → splitLinesKeep (joinLines ls) = ls.map (fun l => l ++ [10]) := by
  induction ls with
  | nil => intro _; rfl
  | cons l rest ih =>
    intro h
    unfold splitLinesKeep
    rw [joinLines, splitLinesKeepAux_line l (joinLines rest) [] (h l (by simp))]
    rw [List.map_cons]
    simp only [List.reverse_nil, List.nil_append]
    congr 1
    exact ih (fun l' hl' => h l' (by simp [hl']))

theorem execute_ok_capture (req : ExecutionRequest) (c o : Dict) (proc : ProcessResult)
    (d : String) (fs : List String) (ls : List (List Nat))
    (hl : ∀ l ∈ ls, 10 ∉ l) (hstdout : proc.stdoutBytes = joinLines ls)
    (hrc : proc.returncode = 0) (hx : req.xcom_push_flag = true) :
    (execute req c o proc d fs).1 =
      Except.ok (some (ls.map (fun l => pyRstrip (req.output_encoding.decode (l ++ [10]))))) := by
  rw [execute_fst]
  unfold executeBody
  rw [hstdout, hrc, hx]
  simp only [if_true, ne_eq, not_true_eq_false, if_false]
  rw [splitLinesKeep_joinLines ls hl]
  unfold runLoop processLine
  simp [List.map_map, Function.comp]

/-- Claim C1 (corrected claim): for a command that writes the given byte
lines to standard output, each followed by a newline, and exits 0, with
capture enabled, `execute` returns exactly one captured string per written
line, in order — each line decoded with the configured codec and stripped
of all trailing whitespace by `rstrip()` (not only of its line
terminator). -/
theorem execute_captures_rstripped_lines (req : ExecutionRequest) (c o : Dict)
    (proc : ProcessResult) (d : String) (fs : List String) (ls : List (List Nat))
    (hl : ∀ l ∈ ls, 10 ∉ l) (hstdout : proc.stdoutBytes = joinLines ls)
    (hrc : proc.returncode = 0) (hx : req.xcom_push_flag = true) :
    (execute req c o proc d fs).1 =
      Except.ok (some (ls.map (fun l => pyRstrip (req.output_encoding.decode (l ++ [10])))))
    ∧ (ls.map (fun l => pyRstrip (req.output_encoding.decode (l ++ [10])))).length = ls.length := by
  refine ⟨execute_ok_capture req c o proc d fs ls hl hstdout hrc hx, ?_⟩
  rw [List.length_map]

theorem execute_captures_rstripped_lines_witness :
    (execute ⟨"echo hi", none, true, asciiEncoding, "t"⟩ [] []
        ⟨joinLines [[104, 105]], 0⟩ "d" []).1 = Except.ok (some ["hi"])
    ∧ ([[104, 105]].map
        (fun l => pyRstrip (asciiEncoding.decode (l ++ [10])))).length = 1 := by
  have h := execute_captures_rstripped_lines ⟨"echo hi", none, true, asciiEncoding, "t"⟩
    [] [] ⟨joinLines [[104, 105]], 0⟩ "d" [] [[104, 105]] (by decide) rfl rfl rfl
  exact ⟨h.1.trans (by decide), h.2⟩

/-- Claim C1 (counterexample to the claim as stated): for an output line
ending in a space before its newline, the captured string is not the line
with only its trailing line terminator removed — `rstrip()` also removed
the space. -/
theorem execute_strip_only_terminator_cex :
    (execute ⟨"echo", none, true, asciiEncoding, "t"⟩ [] [] ⟨[97, 32, 10], 0⟩ "d" []).1
      ≠ Except.ok (some [specStripLineTerminator "a \n"]) := by decide

/-- Claim C2: `execute` raises `AirflowException("Bash command failed")`
exactly when the child return code is non-zero, whatever the capture flag
and the produced output; and that fixed message is the only error it ever
raises. -/
theorem execute_error_iff_nonzero_exit (req : ExecutionRequest) (c o : Dict)
    (proc : ProcessResult) (d : String) (fs : List String) :
    ((execute req c o proc d fs).1 = Except.error "Bash command failed"
      ↔ proc.returncode ≠ 0)
    ∧ ∀ msg, (execute req c o proc d fs).1 = Except.error msg →
        msg = "Bash command failed" := by
  rw [execute_fst]
  unfold executeBody
  by_cases h : proc.returncode = 0
  · simp only [h, ne_eq, not_true_eq_false, if_false]
    by_cases hx : req.xcom_push_flag <;> simp [hx]
  · simp [h]

theorem execute_error_iff_nonzero_exit_witness :
    (execute ⟨"exit 3", none, true, asciiEncoding, "t"⟩ [] [] ⟨[], 3⟩ "d" []).1
      = Except.error "Bash command failed" :=
  (execute_error_iff_nonzero_exit ⟨"exit 3", none, true, asciiEncoding, "t"⟩ [] []
    ⟨[], 3⟩ "d" []).1.mpr (by decide)

/-- Claim C6: whether the invocation succeeds or raises, the temporary
directory created for it is removed again before `execute` hands back its
outcome: afterwards the filesystem is what it was, and the directory is
not in it. -/
theorem tmp_dir_removed_after_execute (req : ExecutionRequest) (c o : Dict)
    (proc : ProcessResult) (tmpDir : String) (fs : List String) (h : tmpDir ∉ fs) :
    (execute req c o proc tmpDir fs).2 = fs
    ∧ tmpDir ∉ (execute req c o proc tmpDir fs).2 := by
  rw [execute_snd, List.erase_cons_head]
  exact ⟨rfl, h⟩

theorem tmp_dir_removed_after_execute_witness :
    (execute ⟨"exit 3", none, false, asciiEncoding, "t"⟩ [] [] ⟨[], 3⟩ "airflowtmp1"
        ["other"]).2 = ["other"]
    ∧ "airflowtmp1" ∉ (execute ⟨"exit 3", none, false, asciiEncoding, "t"⟩ [] [] ⟨[], 3⟩
        "airflowtmp1" ["other"]).2 :=
  tmp_dir_removed_after_execute ⟨"exit 3", none, false, asciiEncoding, "t"⟩ [] [] ⟨[], 3⟩
    "airflowtmp1" ["other"] (by decide)

/-- Claim C7: on a non-zero return code the only outcome is the raised
error; no captured lines are handed back, however much output was buffered
before the failure. -/
theorem execute_no_partial_result_on_failure (req : ExecutionRequest) (c o : Dict)
    (proc : ProcessResult) (d : String) (fs : List String)
    (h : proc.returncode ≠ 0) :
    (execute req c o proc d fs).1 = Except.error "Bash command failed"
    ∧ ∀ ls, (execute req c o proc d fs).1 ≠ Except.ok (some ls) := by
  rw [execute_fst]
  unfold executeBody
  simp [h]

theorem execute_no_partial_result_on_failure_witness :
    (execute ⟨"echo one; exit 3", none, true, asciiEncoding, "t"⟩ [] []
        ⟨joinLines [[111, 110, 101]], 3⟩ "d" []).1 = Except.error "Bash command failed" :=
  (execute_no_partial_result_on_failure ⟨"echo one; exit 3", none, true, asciiEncoding, "t"⟩
    [] [] ⟨joinLines [[111, 110, 101]], 3⟩ "d" [] (by decide)).1

/-- Claim C8: on a zero return code, `execute` returns the ordered buffer
of captured lines exactly when the capture flag is set, and `None`
otherwise, whatever output was produced. -/
theorem execute_result_by_capture_flag (req : ExecutionRequest) (c o : Dict)
    (proc : ProcessResult) (d : String) (fs : List String)
    (h : proc.returncode = 0) :
    (execute req c o proc d fs).1 =
      Except.ok (if req.xcom_push_flag then
        some (runLoop req (splitLinesKeep proc.stdoutBytes)) else none) := by
  rw [execute_fst]
  unfold executeBody
  by_cases hx : req.xcom_push_flag <;> simp [h, hx]

theorem execute_result_by_capture_flag_witness :
    (execute ⟨"echo hi", none, false, asciiEncoding, "t"⟩ [] [] ⟨[104, 10], 0⟩ "d" []).1
      = Except.ok none :=
  (execute_result_by_capture_flag ⟨"echo hi", none, false, asciiEncoding, "t"⟩ [] []
    ⟨[104, 10], 0⟩ "d" [] rfl).trans (by decide)

/-- Claim C3 (counterexample to the claim as stated): an explicitly
supplied environment mapping is not the same mapping after the call —
line 105 updates the dict that `self.env` aliases in place, here adding
the context binding `("B", "2")` to it. -/
theorem supplied_env_mutated_cex :
    (reqAfter ⟨"echo", some [("A", "1")], true, asciiEncoding, "t"⟩ [("B", "2")]).env
      ≠ some [("A", "1")] := by decide

/-- Claim C3 (corrected claim): `execute` leaves the command text, capture
flag, output encoding and task identifier unchanged, and leaves `env`
untouched when it is unset; but an explicitly supplied environment mapping
is mutated in place: after the call it holds its original entries updated
and extended with the context variables. -/
theorem execute_mutates_only_supplied_env (req : ExecutionRequest) (c : Dict) :
    (reqAfter req c).bash_command = req.bash_command
    ∧ (reqAfter req c).xcom_push_flag = req.xcom_push_flag
    ∧ (reqAfter req c).task_id = req.task_id
    ∧ (reqAfter req c).output_encoding = req.output_encoding
    ∧ (req.env = none → (reqAfter req c).env = none)
    ∧ ∀ e, req.env = some e → (reqAfter req c).env = some (dictUpdate e c) := by
  refine ⟨rfl, rfl, rfl, rfl, ?_, ?_⟩
  · intro h
    simp [reqAfter, envAfter, h]
  · intro e h
    simp [reqAfter, envAfter, h]

theorem execute_mutates_only_supplied_env_witness :
    (reqAfter ⟨"echo", some [("A", "1")], true, asciiEncoding, "t"⟩ [("B", "2")]).env
      = some (dictUpdate [("A", "1")] [("B", "2")]) :=
  (execute_mutates_only_supplied_env ⟨"echo", some [("A", "1")], true, asciiEncoding, "t"⟩
    [("B", "2")]).2.2.2.2.2 [("A", "1")] rfl

/-- Claim C4: for a key that occurs both in the explicitly supplied
environment mapping and in the context variables, the environment passed
to the child maps it to the context value — context entries override
same-named supplied entries. -/
theorem context_vars_override_supplied_env (e o c : Dict) (k v : String)
    (hke : (dictGet? e k).isSome) (hnd : (c.map Prod.fst).Nodup) (hkv : (k, v) ∈ c) :
    dictGet? (effectiveEnv (some e) o c) k = some v
    ∧ dictGet? c k = some v := by
  refine ⟨?_, dictGet?_of_mem_nodup c k v hnd hkv⟩
  exact dictGet?_dictUpdate_mem c e k v hnd hkv

theorem context_vars_override_supplied_env_witness :
    dictGet? (effectiveEnv (some [("A", "1")]) [] [("A", "2")]) "A" = some "2"
    ∧ dictGet? [("A", "2")] "A" = some "2" :=
  context_vars_override_supplied_env [("A", "1")] [] [("A", "2")] "A" "2"
    (by decide) (by decide) (by decide)

/-- Claim C5: when no explicit environment mapping is supplied the child
environment is the parent environment updated with the context variables,
so every parent variable stays visible; when a mapping is supplied,
exactly that mapping updated with the context variables is used
instead. -/
theorem child_env_from_parent_or_supplied (o c m : Dict) :
    (∀ k, (dictGet? o k).isSome → (dictGet? (effectiveEnv none o c) k).isSome)
    ∧ effectiveEnv none o c = dictUpdate o c
    ∧ effectiveEnv (some m) o c = dictUpdate m c := by
  refine ⟨?_, rfl, rfl⟩
  intro k hk
  exact isSome_dictGet?_dictUpdate c o k hk

theorem child_env_from_parent_or_supplied_witness :
    (dictGet? (effectiveEnv none [("MARKER", "1")] [("CTX", "2")]) "MARKER").isSome :=
  (child_env_from_parent_or_supplied [("MARKER", "1")] [("CTX", "2")] []).1
    "MARKER" (by decide)

/-- Claim C9: the command body is written to the temporary script file as
its UTF-8 bytes whatever the configured output encoding is; the codec
affects only the decoding of the child output stream. -/
theorem script_bytes_utf8_regardless_of_encoding (req : ExecutionRequest) (enc : Encoding) :
    scriptBytes { req with output_encoding := enc } = utf8Encode req.bash_command
    ∧ scriptBytes req = utf8Encode req.bash_command
    ∧ ∀ raw, processLine req raw = pyRstrip (req.output_encoding.decode raw) :=
  ⟨rfl, rfl, fun _ => rfl⟩

/-- Claim C10: a captured line has all its trailing whitespace stripped,
not only the line terminator: when the decoded raw line splits into a body
followed by trailing whitespace, the captured string is the rstripped
body, and no captured string ends in a whitespace character. -/
theorem captured_line_trailing_ws_stripped (req : ExecutionRequest) (c o : Dict)
    (proc : ProcessResult) (d : String) (fs : List String)
    (rb : List Nat) (b w : String)
    (h10 : 10 ∉ rb) (hstdout : proc.stdoutBytes = rb ++ [10])
    (hrc : proc.returncode = 0) (hx : req.xcom_push_flag = true)
    (hdec : req.output_encoding.decode (rb ++ [10]) = b ++ w)
    (hw : ∀ ch ∈ w.data, pyIsSpace ch = true) :
    (execute req c o proc d fs).1 = Except.ok (some [pyRstrip b])
    ∧ ∀ ch, (pyRstrip b).data.getLast? = some ch → pyIsSpace ch = false := by
  constructor
  · have h1 := execute_ok_capture req c o proc d fs [rb]
      (by intro l hl; rw [List.mem_singleton] at hl; rw [hl]; exact h10)
      (by rw [hstdout]; simp [joinLines]) hrc hx
    rw [h1]
    rw [List.map_cons, List.map_nil, hdec, pyRstrip_append_ws b w hw]
  · intro ch hch
    exact pyRstrip_no_trailing_ws b ch hch

theorem captured_line_trailing_ws_stripped_witness :
    (execute ⟨"echo", none, true, asciiEncoding, "t"⟩ [] [] ⟨[97, 32, 9, 10], 0⟩ "d" []).1
      = Except.ok (some ["a"]) := by
  have h := captured_line_trailing_ws_stripped ⟨"echo", none, true, asciiEncoding, "t"⟩
    [] [] ⟨[97, 32, 9, 10], 0⟩ "d" [] [97, 32, 9] "a" " \t\n"
    (by decide) rfl rfl rfl (by decide) (by decide)
  exact h.1.trans (by decide)
